import Mathlib

/-!
Shallow embedding of the Yomitoku OCR web UI (`src/app.py`) and proofs of
the specification claims about its job orchestrator, artifact store and
input validator.

Modelling conventions:
* Python strings are Lean `String`s; file contents are `String`s.
* `datetime.now().strftime("%Y%m%d_%H%M%S")` is passed in as an explicit
  `timestamp : String` argument (in the real program a 15-character string
  with one-second resolution).
* The filesystem is an explicit value: either a path-to-content association
  list (for the upload store) or a record of existing file and directory
  paths (for cleanup).
* The external `yomitoku` subprocess is an `EngineBehavior` value
  describing what the child process would do: exit after some duration
  with a return code, stdout, stderr and a set of files written into the
  output directory (in directory-listing order), or never exit, or make
  the invocation raise an unexpected exception.
-/

namespace YomitokuApp

/-- `SUPPORTED_FORMATS` from app.py. -/
def SUPPORTED_FORMATS : List String := ["png", "jpg", "jpeg", "pdf", "tiff", "bmp"]

/-- `TEMP_DIR` from app.py (`Path("./temp")`, rendered as the relative path string). -/
def TEMP_DIR : String := "temp"

/-- The values of `OUTPUT_FORMATS` from app.py. -/
def OUTPUT_FORMATS : List (String × String) :=
  [("Markdown", "md"), ("JSON", "json"), ("HTML", "html"), ("CSV", "csv")]

/-- Split a character list at `'/'` separators (the character-level version
of `str.split("/")`, used so that everything reduces in the kernel). -/
def splitOnSlash : List Char → List (List Char)
  | [] => [[]]
  | c :: cs =>
      match splitOnSlash cs with
      | [] => [[]]
      | g :: gs => if c = '/' then [] :: g :: gs else (c :: g) :: gs

/-- Python `pathlib.Path(p).name`: the last path component, with empty and
`"."` components dropped (pathlib normalizes them away). -/
def pathName (p : String) : String :=
  ⟨((splitOnSlash p.data).filter (fun c => c ≠ [] ∧ c ≠ ['.'])).getLastD []⟩

/-- Python `pathlib.Path(p).suffix`: the substring of `name` from its last
dot, provided that dot is neither the first nor the last character of the
name; otherwise the empty string. -/
def pathSuffix (p : String) : String :=
  let cs := (pathName p).data
  match cs.reverse.findIdx? (fun c => c = '.') with
  | none => ""
  | some j => if 0 < j ∧ j < cs.length - 1 then ⟨(cs.reverse.take (j + 1)).reverse⟩ else ""

/-- `validate_file_format` from app.py:
`suffix = file_path.suffix.lower().lstrip("."); return suffix in SUPPORTED_FORMATS`. -/
def validate_file_format (file_path : String) : Bool :=
  let suffix : String := ⟨((pathSuffix file_path).data.map Char.toLower).dropWhile (fun c => c = '.')⟩
  SUPPORTED_FORMATS.contains suffix

/-! ### The external engine and `run_yomitoku` -/

/-- The `timeout=300` (seconds) argument passed to `subprocess.run` in
`run_yomitoku`. -/
def TIMEOUT : Nat := 300

/-- One possible behavior of the external `yomitoku` child process for a
single invocation:
* `exits duration returncode stdout stderr files` — the process exits after
  `duration` seconds with the given return code and captured streams, having
  written `files` (bare file names, in directory-listing order) into the
  output directory;
* `neverExits` — the process runs past any bound (so `subprocess.run`
  raises `TimeoutExpired` after killing the child);
* `raises msg` — the invocation itself raises an unexpected exception
  whose `str` is `msg` (e.g. the command is not installed). -/
inductive EngineBehavior where
  | exits (duration : Nat) (returncode : Int) (stdout stderr : String) (files : List String)
  | neverExits
  | raises (msg : String)
deriving DecidableEq, Repr

/-- The bare file names the engine leaves in the output directory. -/
def engineFileNames : EngineBehavior → List String
  | .exits _ _ _ _ files => files
  | .neverExits => []
  | .raises _ => []

/-- The name of the output directory `run_yomitoku` creates:
`TEMP_DIR / f"output_{timestamp}"`. -/
def output_dir_path (timestamp : String) : String :=
  TEMP_DIR ++ "/output_" ++ timestamp

/-- `output_dir.glob(f"*.{output_format}")` in listing order: the names in
`listing` ending with `"." ++ output_format` (the formats used by the app —
`md`, `json`, `html`, `csv` — contain no glob metacharacters). -/
def globMatches (output_format : String) (listing : List String) : List String :=
  listing.filter (fun name => ("." ++ output_format).data.isSuffixOf name.data)

/-- The observable outcome of one `run_yomitoku` call. `success`,
`output_file`, `output_dir` and `error_message` are the four components of
the returned tuple; `progress` is the sequence of `(fraction, label)` pairs
delivered to `progress_callback`; `elapsed` is the number of seconds the
call spends blocked on the child process before returning; `childRunning`
records whether the child process is still alive after the call returns
(`subprocess.run` kills the child before raising `TimeoutExpired`). -/
structure RunResult where
  success : Bool
  output_file : Option String
  output_dir : Option String
  error_message : Option String
  progress : List (Rat × String)
  elapsed : Nat
  childRunning : Bool
deriving DecidableEq, Repr

/-- `run_yomitoku` from app.py (lines 80–135), as a function of the inputs,
the timestamp taken at the start of the call, whether a progress callback
was supplied, and the engine's behavior.  Mirrors the source control flow:
emit progress 0.2; run the subprocess with a 300 s timeout (`TimeoutExpired`
and unexpected exceptions are caught and turned into error returns); emit
progress 0.8; non-zero exit returns `stderr or "Unknown error occurred"`;
then glob the output directory, returning an error when no file matches and
otherwise the first match, progress 1.0 and success. -/
def run_yomitoku (timestamp input_path output_format : String)
    (hasCallback : Bool) (b : EngineBehavior) : RunResult :=
  let output_dir := output_dir_path timestamp
  let p1 : List (Rat × String) :=
    if hasCallback then [((2 : Rat)/10, "Running yomitoku...")] else []
  match b with
  | .neverExits =>
      { success := false, output_file := none, output_dir := none,
        error_message := some "Processing timeout (exceeded 5 minutes)",
        progress := p1, elapsed := TIMEOUT, childRunning := false }
  | .raises msg =>
      { success := false, output_file := none, output_dir := none,
        error_message := some ("Error: " ++ msg),
        progress := p1, elapsed := 0, childRunning := false }
  | .exits duration returncode _stdout stderr files =>
      if TIMEOUT < duration then
        { success := false, output_file := none, output_dir := none,
          error_message := some "Processing timeout (exceeded 5 minutes)",
          progress := p1, elapsed := TIMEOUT, childRunning := false }
      else
        let p2 := p1 ++ (if hasCallback then [((8 : Rat)/10, "Processing results...")] else [])
        if returncode ≠ 0 then
          { success := false, output_file := none, output_dir := none,
            error_message := some (if stderr = "" then "Unknown error occurred" else stderr),
            progress := p2, elapsed := duration, childRunning := false }
        else
          match globMatches output_format files with
          | [] =>
              { success := false, output_file := none, output_dir := none,
                error_message := some "No output file generated",
                progress := p2, elapsed := duration, childRunning := false }
          | f :: _ =>
              { success := true, output_file := some (output_dir ++ "/" ++ f),
                output_dir := some output_dir, error_message := none,
                progress := p2 ++ (if hasCallback then [((1 : Rat), "Complete!")] else []),
                elapsed := duration, childRunning := false }

/-- The spec's error taxonomy for terminal job errors (section 7 of the
spec); `unexpected` stands for the catch-all `except Exception` path, which
the spec does not name but the code has. -/
inductive ErrorKind where
  | timeout
  | engineFailure
  | noOutputProduced
  | unexpected
deriving DecidableEq, Repr

/-- Spec-side classifier: which error kind a given engine behavior drives
`run_yomitoku` into (`none` means the call succeeds).  Defined by the same
branch structure as `run_yomitoku`, so that "the run returned an
X-classified error" can be stated as `classify output_format b = some X`. -/
def classify (output_format : String) (b : EngineBehavior) : Option ErrorKind :=
  match b with
  | .neverExits => some .timeout
  | .raises _ => some .unexpected
  | .exits duration returncode _ _ files =>
      if TIMEOUT < duration then some .timeout
      else if returncode ≠ 0 then some .engineFailure
      else if globMatches output_format files = [] then some .noOutputProduced
      else none

/-- `True` exactly when the child process has not completed within the
`TIMEOUT` budget (so `subprocess.run` raises `TimeoutExpired`). -/
def engineExceedsBudget : EngineBehavior → Bool
  | .exits duration _ _ _ _ => TIMEOUT < duration
  | .neverExits => true
  | .raises _ => false

/-- `True` exactly when the child process completes within the budget and
exits with status zero. -/
def completedWithZeroExit : EngineBehavior → Bool
  | .exits duration returncode _ _ _ => decide (duration ≤ TIMEOUT) && decide (returncode = 0)
  | .neverExits => false
  | .raises _ => false

/-! ### The upload store and `save_uploaded_file` -/

/-- A path-to-content store for regular files under the temp root. Writes
prepend, lookups take the first hit, so a later write to the same path
shadows (overwrites) the earlier content, like `open(path, "wb")`. -/
abbrev Store := List (String × String)

/-- Content currently stored at `p`. -/
def lookupStore (fs : Store) (p : String) : Option String :=
  (fs.find? (fun e => e.1 == p)).map Prod.snd

/-- `open(file_path, "wb"); f.write(content)`: (re)creates the file at `p`
with content `c`, truncating whatever was there. -/
def writeFile (fs : Store) (p c : String) : Store :=
  (p, c) :: fs

/-- `save_uploaded_file` from app.py (lines 45–57): builds
`TEMP_DIR / f"{timestamp}_{uploaded_file.name}"` and writes the uploaded
bytes there.  Returns the destination path and the store afterwards. -/
def save_uploaded_file (timestamp name content : String) (fs : Store) : String × Store :=
  let file_path := TEMP_DIR ++ "/" ++ (timestamp ++ "_" ++ name)
  (file_path, writeFile fs file_path content)

/-! ### The cleanup filesystem model and `cleanup_temp_files` -/

/-- `none` if `xs` is not a prefix of `ys`, otherwise the rest of `ys`
after that prefix. -/
def remainderAfterPrefix : List Char → List Char → Option (List Char)
  | [], ys => some ys
  | _ :: _, [] => none
  | x :: xs, y :: ys => if x = y then remainderAfterPrefix xs ys else none

/-- `q` is an immediate child of directory `d`: `q = d ++ "/" ++ name` with
`name` nonempty and containing no separator (what `Path(d).iterdir()`
enumerates). -/
def isChildOf (d q : String) : Bool :=
  match remainderAfterPrefix (d.data ++ ['/']) q.data with
  | none => false
  | some rest => (decide (rest ≠ [])) && !(rest.contains '/')

/-- Filesystem state for the cleanup model: the existing regular-file paths
and the existing directory paths. -/
structure FS where
  files : List String
  dirs : List String
deriving DecidableEq, Repr

/-- `Path(p).exists()`. -/
def pathExists (fs : FS) (p : String) : Bool :=
  fs.files.contains p || fs.dirs.contains p

/-- `Path(p).is_dir()`. -/
def is_dir (fs : FS) (p : String) : Bool :=
  fs.dirs.contains p

/-- `cleanup_temp_files` from app.py (lines 31–42) on the filesystem model.
Returns the filesystem afterwards, and `some warning` when the
`except Exception` branch fired (`st.warning(...)`).  For a directory the
source unlinks every entry of `iterdir()` and then removes the directory;
`unlink` on a subdirectory raises, which the `except` catches after the
regular-file children encountered so far were already unlinked (listing is
modelled files-first).  A nonexistent path is a no-op. -/
def cleanup_temp_files (fs : FS) (temp_path : String) : FS × Option String :=
  if pathExists fs temp_path then
    if is_dir fs temp_path then
      let dirChildren := fs.dirs.filter (fun q => isChildOf temp_path q)
      let files' := fs.files.filter (fun q => !(isChildOf temp_path q))
      match dirChildren with
      | [] =>
          ({ files := files', dirs := fs.dirs.filter (fun q => q ≠ temp_path) }, none)
      | q :: _ =>
          ({ files := files', dirs := fs.dirs },
           some ("Failed to cleanup temp files: IsADirectoryError: " ++ q))
    else
      ({ files := fs.files.filter (fun q => q ≠ temp_path), dirs := fs.dirs }, none)
  else (fs, none)

/-! ### The run-and-cleanup portion of `main` -/

/-- The full paths the engine leaves inside the output directory. -/
def engineWrittenFiles (output_dir : String) (b : EngineBehavior) : List String :=
  (engineFileNames b).map (fun f => output_dir ++ "/" ++ f)

/-- The execute-button branch of `main` in app.py (lines 244–268): call
`run_yomitoku` (which creates the output directory; the engine then writes
its files into it); only when it reports success does the code open and
read the output file inside a `try`, and the two `cleanup_temp_files`
calls sit inside that `try` AFTER the read — so cleanup runs only when the
run succeeded AND the read did not raise.  `readOk` says whether reading
the output file succeeds (its `except` branch only displays an error).  On
a failure result the code only displays the error message — no cleanup
runs.  Returns the filesystem afterwards and the run result. -/
def handle_job (fs : FS) (input_path timestamp output_format : String)
    (hasCallback : Bool) (b : EngineBehavior) (readOk : Bool) : FS × RunResult :=
  let odir := output_dir_path timestamp
  let fsRun : FS :=
    { files := fs.files ++ engineWrittenFiles odir b, dirs := fs.dirs ++ [odir] }
  let r := run_yomitoku timestamp input_path output_format hasCallback b
  if r.success && readOk then
    let fs1 := (cleanup_temp_files fsRun input_path).1
    let fs2 := (cleanup_temp_files fs1 odir).1
    (fs2, r)
  else
    (fsRun, r)

/-! ### Spec-side definitions -/

/-- Spec-side: strict lexicographic order on character lists (the standard
string order, written structurally so it reduces in the kernel). -/
def charListLt : List Char → List Char → Bool
  | [], [] => false
  | [], _ :: _ => true
  | _ :: _, [] => false
  | a :: as, b :: bs => if a < b then true else if a = b then charListLt as bs else false

/-- Spec-side: the lexicographically least element of a list of names
(what the spec's deterministic tie-break for multiple output files would
select). -/
def lexMin (l : List String) : Option String :=
  l.foldl (fun acc s =>
    match acc with
    | none => some s
    | some t => if charListLt s.data t.data then some s else some t) none

/-- Spec-side: the lowercased extension of a path with the leading
separator removed, as the spec words it for `isSupportedFormat`. -/
def specExtension (p : String) : String :=
  ⟨((pathSuffix p).data.map Char.toLower).dropWhile (fun c => c = '.')⟩

/-! ## Helper lemmas -/

theorem string_data_append (a b : String) : (a ++ b).data = a.data ++ b.data := rfl

theorem underscore_data : "_".data = ['_'] := rfl

/-- The destination path `save_uploaded_file` builds is injective in
(timestamp, original name) as long as the timestamps have equal length
(in the program they are always 15-character `%Y%m%d_%H%M%S` strings). -/
theorem save_dest_inj (ts name ts' name' : String) (hlen : ts.length = ts'.length)
    (h : TEMP_DIR ++ "/" ++ (ts ++ "_" ++ name) = TEMP_DIR ++ "/" ++ (ts' ++ "_" ++ name')) :
    ts = ts' ∧ name = name' := by
  have hdata := congrArg String.data h
  simp only [string_data_append, underscore_data, List.append_assoc,
    List.singleton_append] at hdata
  have h2 := List.append_cancel_left hdata
  have h3 : ts.data ++ '_' :: name.data = ts'.data ++ '_' :: name'.data := by
    simpa using h2
  obtain ⟨h4, h5⟩ := List.append_inj h3 hlen
  refine ⟨String.ext h4, String.ext ?_⟩
  simpa using h5

theorem contains_eq_false_iff (l : List String) (a : String) :
    l.contains a = false ↔ a ∉ l := by
  rw [Bool.eq_false_iff]
  exact not_congr List.elem_iff

theorem cleanup_noop (fs : FS) (p : String) (h : pathExists fs p = false) :
    cleanup_temp_files fs p = (fs, none) := by
  simp [cleanup_temp_files, h]

theorem cleanup_file (fs : FS) (p : String)
    (hex : pathExists fs p = true) (hd : is_dir fs p = false) :
    cleanup_temp_files fs p =
      ({ files := fs.files.filter (fun q => q ≠ p), dirs := fs.dirs }, none) := by
  unfold cleanup_temp_files
  rw [hex, hd]
  simp

theorem cleanup_dir_ok (fs : FS) (p : String)
    (hex : pathExists fs p = true) (hd : is_dir fs p = true)
    (hdc : fs.dirs.filter (fun q => isChildOf p q) = []) :
    cleanup_temp_files fs p =
      ({ files := fs.files.filter (fun q => !(isChildOf p q)),
         dirs := fs.dirs.filter (fun q => q ≠ p) }, none) := by
  unfold cleanup_temp_files
  rw [hex, hd, hdc]
  simp

theorem remainderAfterPrefix_eq_some (xs ys rest : List Char) :
    remainderAfterPrefix xs ys = some rest ↔ ys = xs ++ rest := by
  induction xs generalizing ys with
  | nil => simp [remainderAfterPrefix, eq_comm]
  | cons x xs ih =>
      cases ys with
      | nil => simp [remainderAfterPrefix]
      | cons y ys =>
          simp only [remainderAfterPrefix]
          by_cases h : x = y
          · subst h
            simp [ih]
          · simp only [if_neg h, List.cons_append, List.cons.injEq]
            constructor
            · intro hc
              exact absurd hc (by simp)
            · intro hc
              exact absurd hc.1 (fun he => h he.symm)

/-- A directory is never its own immediate child. -/
theorem isChildOf_self (d : String) : isChildOf d d = false := by
  unfold isChildOf
  cases hr : remainderAfterPrefix (d.data ++ ['/']) d.data with
  | none => rfl
  | some rest =>
      have hlen := congrArg List.length ((remainderAfterPrefix_eq_some _ _ _).mp hr)
      simp [List.length_append] at hlen

/-- Shape of `run_yomitoku` results: on success the output file and the
output directory are present and there is no error message; on failure both
are absent and there is an error message. -/
theorem run_shape_aux (ts ip fmt : String) (cb : Bool) (b : EngineBehavior) :
    ((run_yomitoku ts ip fmt cb b).success = true →
      (∃ f, (run_yomitoku ts ip fmt cb b).output_file = some f) ∧
      (run_yomitoku ts ip fmt cb b).output_dir = some (output_dir_path ts) ∧
      (run_yomitoku ts ip fmt cb b).error_message = none) ∧
    ((run_yomitoku ts ip fmt cb b).success = false →
      (run_yomitoku ts ip fmt cb b).output_file = none ∧
      (run_yomitoku ts ip fmt cb b).output_dir = none ∧
      ∃ m, (run_yomitoku ts ip fmt cb b).error_message = some m) := by
  cases b with
  | neverExits => simp [run_yomitoku]
  | raises msg => simp [run_yomitoku]
  | exits d rc out err files =>
      by_cases hd : TIMEOUT < d
      · simp [run_yomitoku, hd]
      · by_cases hrc : rc = 0
        · cases hm : globMatches fmt files with
          | nil => simp [run_yomitoku, hd, hrc, hm]
          | cons f rest => simp [run_yomitoku, hd, hrc, hm]
        · simp [run_yomitoku, hd, hrc]

theorem handle_job_snd (fs : FS) (ip ts fmt : String) (cb : Bool) (b : EngineBehavior)
    (readOk : Bool) :
    (handle_job fs ip ts fmt cb b readOk).2 = run_yomitoku ts ip fmt cb b := by
  simp only [handle_job]
  split <;> rfl

theorem pathExists_eq_false (fs : FS) (p : String) (hf : p ∉ fs.files) (hd : p ∉ fs.dirs) :
    pathExists fs p = false := by
  show (fs.files.contains p || fs.dirs.contains p) = false
  rw [(contains_eq_false_iff _ _).mpr hf, (contains_eq_false_iff _ _).mpr hd]
  rfl

/-! ## Theorems for the claims -/

/-- C7: `validate_file_format` is pure and returns `true` for a path if and
only if the path's lowercased extension, with the leading separator
removed, is a member of the fixed set png/jpg/jpeg/pdf/tiff/bmp; in
particular it returns `false` for `weird.xyz`. -/
theorem validate_file_format_spec (p : String) :
    (validate_file_format p = true ↔
      specExtension p ∈ ["png", "jpg", "jpeg", "pdf", "tiff", "bmp"]) ∧
    validate_file_format "weird.xyz" = false := by
  refine ⟨?_, by decide⟩
  simp [validate_file_format, specExtension, SUPPORTED_FORMATS, List.elem_iff]

/-- C10: every `run_yomitoku` result has exactly one of the two shapes —
success with both `output_file` and `output_dir` present and no error
message, or failure with both absent and an error message present — and
`success` holds iff `error_message` is `None`. -/
theorem run_yomitoku_result_shape (ts ip fmt : String) (cb : Bool) (b : EngineBehavior) :
    ((run_yomitoku ts ip fmt cb b).success = true ↔
      (run_yomitoku ts ip fmt cb b).error_message = none) ∧
    (((run_yomitoku ts ip fmt cb b).success = true ∧
      (run_yomitoku ts ip fmt cb b).output_file.isSome = true ∧
      (run_yomitoku ts ip fmt cb b).output_dir.isSome = true ∧
      (run_yomitoku ts ip fmt cb b).error_message = none) ∨
     ((run_yomitoku ts ip fmt cb b).success = false ∧
      (run_yomitoku ts ip fmt cb b).output_file = none ∧
      (run_yomitoku ts ip fmt cb b).output_dir = none ∧
      (run_yomitoku ts ip fmt cb b).error_message.isSome = true)) := by
  cases b with
  | neverExits => simp [run_yomitoku]
  | raises msg => simp [run_yomitoku]
  | exits d rc out err files =>
      by_cases hd : TIMEOUT < d
      · simp [run_yomitoku, hd]
      · by_cases hrc : rc = 0
        · cases hm : globMatches fmt files with
          | nil => simp [run_yomitoku, hd, hrc, hm]
          | cons f rest => simp [run_yomitoku, hd, hrc, hm]
        · simp [run_yomitoku, hd, hrc]

/-- C8: with a progress sink attached, the fractions `run_yomitoku` emits
form a strictly increasing sequence, and that sequence ends at `1.0` if and
only if the call returns success (in this sequential model no notification
can be emitted after the result is returned: the progress list is complete
when the result exists). -/
theorem run_yomitoku_progress_spec (ts ip fmt : String) (b : EngineBehavior) :
    List.Chain' (· < ·) ((run_yomitoku ts ip fmt true b).progress.map Prod.fst) ∧
    (((run_yomitoku ts ip fmt true b).progress.map Prod.fst).getLast? = some 1 ↔
      (run_yomitoku ts ip fmt true b).success = true) := by
  have h1 : ((2 : Rat)/10) < 8/10 := by norm_num
  have h2 : ((8 : Rat)/10) < 1 := by norm_num
  have h3 : ((2 : Rat)/10) ≠ 1 := by norm_num
  have h4 : ((8 : Rat)/10) ≠ 1 := by norm_num
  cases b with
  | neverExits => constructor <;> simp [run_yomitoku, h3]
  | raises msg => constructor <;> simp [run_yomitoku, h3]
  | exits d rc out err files =>
      by_cases hd : TIMEOUT < d
      · constructor <;> simp [run_yomitoku, hd, h3]
      · by_cases hrc : rc = 0
        · cases hm : globMatches fmt files with
          | nil => constructor <;> simp [run_yomitoku, hd, hrc, hm, h1, h4]
          | cons f rest => constructor <;> simp [run_yomitoku, hd, hrc, hm, h1, h2]
        · constructor <;> simp [run_yomitoku, hd, hrc, h1, h4]

/-- C4: when the engine has not completed within the 300-second budget,
`run_yomitoku` returns a Timeout-classified error, the call returns after
at most the budget (`subprocess.run` kills the child and raises
`TimeoutExpired` when the budget elapses), and no child process is left
running afterward. -/
theorem run_yomitoku_timeout_spec (ts ip fmt : String) (cb : Bool) (b : EngineBehavior)
    (h : engineExceedsBudget b = true) :
    (run_yomitoku ts ip fmt cb b).success = false ∧
    (run_yomitoku ts ip fmt cb b).error_message =
      some "Processing timeout (exceeded 5 minutes)" ∧
    (run_yomitoku ts ip fmt cb b).elapsed ≤ TIMEOUT ∧
    (run_yomitoku ts ip fmt cb b).childRunning = false ∧
    classify fmt b = some ErrorKind.timeout := by
  cases b with
  | neverExits => simp [run_yomitoku, classify]
  | raises m => simp [engineExceedsBudget] at h
  | exits d rc out err files =>
      simp only [engineExceedsBudget, decide_eq_true_eq] at h
      simp [run_yomitoku, classify, h]

/-- Witness for C4: the hanging-engine scenario (`scan.tiff`, format
`html`). -/
theorem run_yomitoku_timeout_spec_witness :
    (run_yomitoku "20240101_000000" "temp/scan.tiff" "html" true EngineBehavior.neverExits).success = false ∧
    (run_yomitoku "20240101_000000" "temp/scan.tiff" "html" true EngineBehavior.neverExits).error_message =
      some "Processing timeout (exceeded 5 minutes)" ∧
    (run_yomitoku "20240101_000000" "temp/scan.tiff" "html" true EngineBehavior.neverExits).elapsed ≤ TIMEOUT ∧
    (run_yomitoku "20240101_000000" "temp/scan.tiff" "html" true EngineBehavior.neverExits).childRunning = false ∧
    classify "html" EngineBehavior.neverExits = some ErrorKind.timeout :=
  run_yomitoku_timeout_spec "20240101_000000" "temp/scan.tiff" "html" true
    EngineBehavior.neverExits (by decide)

/-- C5: when the engine exits non-zero within the budget, `run_yomitoku`
returns an EngineFailure-classified error whose message is the captured
stderr, or the generic message when the captured stderr is empty. -/
theorem run_yomitoku_engine_failure_spec (ts ip fmt out err : String) (cb : Bool)
    (d : Nat) (rc : Int) (files : List String)
    (hd : d ≤ TIMEOUT) (hrc : rc ≠ 0) :
    (run_yomitoku ts ip fmt cb (.exits d rc out err files)).success = false ∧
    (run_yomitoku ts ip fmt cb (.exits d rc out err files)).error_message =
      some (if err = "" then "Unknown error occurred" else err) ∧
    classify fmt (.exits d rc out err files) = some ErrorKind.engineFailure := by
  have hd' : ¬ TIMEOUT < d := not_lt.mpr hd
  simp [run_yomitoku, classify, hd', hrc]

/-- Witness for C5: the spec scenario — `doc.pdf`, format `csv`, engine
exits 1 with stderr `"parse error"` — yields exactly `"parse error"`. -/
theorem run_yomitoku_engine_failure_spec_witness :
    (run_yomitoku "20240101_000000" "temp/doc.pdf" "csv" true
      (EngineBehavior.exits 3 1 "" "parse error" [])).error_message = some "parse error" := by
  have h := run_yomitoku_engine_failure_spec "20240101_000000" "temp/doc.pdf" "csv"
    "" "parse error" true 3 1 [] (by decide) (by decide)
  simpa using h.2.1

/-- C6: `run_yomitoku` reaches the NoOutputProduced-classified error (and
then returns failure with message `"No output file generated"`) exactly
when the engine completed within the budget with exit status zero but left
no file matching the requested format's extension in the output
directory. -/
theorem run_yomitoku_no_output_spec (ts ip fmt : String) (cb : Bool) (b : EngineBehavior) :
    (classify fmt b = some ErrorKind.noOutputProduced ↔
      completedWithZeroExit b = true ∧ globMatches fmt (engineFileNames b) = []) ∧
    (classify fmt b ≠ some ErrorKind.noOutputProduced ∨
      ((run_yomitoku ts ip fmt cb b).success = false ∧
       (run_yomitoku ts ip fmt cb b).error_message = some "No output file generated")) := by
  cases b with
  | neverExits => simp [classify, completedWithZeroExit]
  | raises m => simp [classify, completedWithZeroExit]
  | exits d rc out err files =>
      by_cases hd : TIMEOUT < d
      · have hd2 : ¬ d ≤ TIMEOUT := not_le.mpr hd
        simp [classify, completedWithZeroExit, engineFileNames, hd, hd2]
      · have hd2 : d ≤ TIMEOUT := not_lt.mp hd
        by_cases hrc : rc = 0
        · cases hm : globMatches fmt files with
          | nil =>
              simp [classify, completedWithZeroExit, engineFileNames, run_yomitoku,
                hd, hd2, hrc, hm]
          | cons f rest =>
              simp [classify, completedWithZeroExit, engineFileNames, hd, hd2, hrc, hm]
        · simp [classify, completedWithZeroExit, engineFileNames, hd, hd2, hrc]

/-- C2 counterexample: with the output-directory listing `["b.md", "a.md"]`
(both matching `*.md`), `run_yomitoku` returns `b.md` — the first file in
scan order — not the lexicographically least match `a.md` the claim
requires. -/
theorem run_yomitoku_lex_counterexample :
    globMatches "md" ["b.md", "a.md"] = ["b.md", "a.md"] ∧
    lexMin (globMatches "md" ["b.md", "a.md"]) = some "a.md" ∧
    (run_yomitoku "20240101_000000" "temp/in.png" "md" false
      (EngineBehavior.exits 3 0 "" "" ["b.md", "a.md"])).output_file =
        some "temp/output_20240101_000000/b.md" ∧
    (run_yomitoku "20240101_000000" "temp/in.png" "md" false
      (EngineBehavior.exits 3 0 "" "" ["b.md", "a.md"])).output_file ≠
        some "temp/output_20240101_000000/a.md" := by decide

/-- C2 amended: on a multi-file output directory `run_yomitoku`
deterministically (given the listing order) selects the FIRST file of the
directory scan matching the requested extension — the filesystem listing
order, not the lexicographic minimum. -/
theorem run_yomitoku_first_match_amended (ts ip fmt out err : String) (cb : Bool)
    (d : Nat) (files : List String) (f : String) (rest : List String)
    (hd : d ≤ TIMEOUT) (hm : globMatches fmt files = f :: rest) :
    (run_yomitoku ts ip fmt cb (.exits d 0 out err files)).success = true ∧
    (run_yomitoku ts ip fmt cb (.exits d 0 out err files)).output_file =
      some (output_dir_path ts ++ "/" ++ f) := by
  have hd' : ¬ TIMEOUT < d := not_lt.mpr hd
  simp [run_yomitoku, hd', hm]

/-- Witness for the amended C2 at a two-file directory listed `b.md` before
`a.md`. -/
theorem run_yomitoku_first_match_amended_witness :
    (run_yomitoku "20240101_000000" "temp/in.png" "md" true
      (EngineBehavior.exits 3 0 "" "" ["b.md", "a.md"])).success = true ∧
    (run_yomitoku "20240101_000000" "temp/in.png" "md" true
      (EngineBehavior.exits 3 0 "" "" ["b.md", "a.md"])).output_file =
      some (output_dir_path "20240101_000000" ++ "/" ++ "b.md") :=
  run_yomitoku_first_match_amended "20240101_000000" "temp/in.png" "md" "" "" true 3
    ["b.md", "a.md"] "b.md" ["a.md"] (by decide) (by decide)

/-- C3 counterexample: two `save_uploaded_file` calls within the same
second (same `%Y%m%d_%H%M%S` timestamp) and with the same original name
build the same destination path, and the second write replaces the content
of the still-existing first artifact. -/
theorem save_uploaded_file_counterexample :
    (save_uploaded_file "20240101_120000" "a.png" "one" []).1 =
      (save_uploaded_file "20240101_120000" "a.png" "two"
        (save_uploaded_file "20240101_120000" "a.png" "one" []).2).1 ∧
    lookupStore (save_uploaded_file "20240101_120000" "a.png" "one" []).2
      "temp/20240101_120000_a.png" = some "one" ∧
    lookupStore (save_uploaded_file "20240101_120000" "a.png" "two"
      (save_uploaded_file "20240101_120000" "a.png" "one" []).2).2
      "temp/20240101_120000_a.png" = some "two" := by decide

/-- C3 amended: the destination is the timestamp-derived prefix plus the
original name under the temp root; two calls write to distinct paths (and
hence neither overwrites the other) whenever their timestamps (of equal
length, as `%Y%m%d_%H%M%S` always is) or their original names differ, and
a write never alters the content stored at any other path.  Only a call in
the same second with the same original name overwrites. -/
theorem save_uploaded_file_amended (ts name content : String) (fs : Store)
    (ts' name' content' : String)
    (hlen : ts.length = ts'.length)
    (hne : ts ≠ ts' ∨ name ≠ name') :
    (save_uploaded_file ts name content fs).1 ≠ (save_uploaded_file ts' name' content' fs).1 ∧
    (∀ q : String, q ≠ (save_uploaded_file ts name content fs).1 →
      lookupStore (save_uploaded_file ts name content fs).2 q = lookupStore fs q) := by
  constructor
  · intro h
    obtain ⟨h4, h5⟩ := save_dest_inj ts name ts' name' hlen h
    rcases hne with hne | hne
    · exact hne h4
    · exact hne h5
  · intro q hq
    simp only [save_uploaded_file, writeFile, lookupStore]
    rw [List.find?_cons_of_neg]
    intro hcontra
    exact hq (eq_of_beq hcontra).symm

/-- Witness for the amended C3: consecutive-second timestamps with the same
name produce distinct destination paths. -/
theorem save_uploaded_file_amended_witness :
    (save_uploaded_file "20240101_120000" "a.png" "one" []).1 ≠
      (save_uploaded_file "20240101_120001" "a.png" "two" []).1 :=
  (save_uploaded_file_amended "20240101_120000" "a.png" "one" []
    "20240101_120001" "a.png" "two" (by decide) (Or.inl (by decide))).1

/-- C9: `cleanup_temp_files` is idempotent: on a path that does not exist
it is a no-op that produces no warning, and after any warning-free call
(which removes the path) a second call on the same path is again a no-op
with no warning.  (`hwf` says the path is not simultaneously a regular
file and a directory, as on a real filesystem.) -/
theorem cleanup_temp_files_idempotent (fs : FS) (p : String)
    (hwf : fs.files.contains p = false ∨ fs.dirs.contains p = false) :
    (pathExists fs p = false → cleanup_temp_files fs p = (fs, none)) ∧
    ((cleanup_temp_files fs p).2 = none →
      cleanup_temp_files (cleanup_temp_files fs p).1 p =
        ((cleanup_temp_files fs p).1, none)) := by
  constructor
  · intro h
    simp [cleanup_temp_files, h]
  · by_cases he : pathExists fs p = true
    case neg =>
      have hcl : cleanup_temp_files fs p = (fs, none) := by
        simp [cleanup_temp_files, he]
      intro _
      rw [hcl]
      exact hcl
    case pos =>
      by_cases hd : is_dir fs p = true
      · have hfp : fs.files.contains p = false := by
          rcases hwf with h | h
          · exact h
          · rw [is_dir, h] at hd
            exact absurd hd (by simp)
        cases hdc : fs.dirs.filter (fun q => isChildOf p q) with
        | cons q qs =>
            intro hnone
            have hsnd : (cleanup_temp_files fs p).2 =
                some ("Failed to cleanup temp files: IsADirectoryError: " ++ q) := by
              simp [cleanup_temp_files, he, hd, hdc]
            rw [hsnd] at hnone
            exact absurd hnone (by simp)
        | nil =>
            intro _
            have hcl : cleanup_temp_files fs p =
                ({ files := fs.files.filter (fun q => !(isChildOf p q)),
                   dirs := fs.dirs.filter (fun q => q ≠ p) }, none) := by
              simp [cleanup_temp_files, he, hd, hdc]
            rw [hcl]
            have h1 : p ∉ fs.files.filter (fun q => !(isChildOf p q)) := fun hmem =>
              ((contains_eq_false_iff _ _).mp hfp) (List.mem_filter.mp hmem).1
            have h2 : p ∉ fs.dirs.filter (fun q => decide (q ≠ p)) := fun hmem => by
              simpa using (List.mem_filter.mp hmem).2
            have hex : pathExists
                { files := fs.files.filter (fun q => !(isChildOf p q)),
                  dirs := fs.dirs.filter (fun q => q ≠ p) } p = false := by
              show ((fs.files.filter (fun q => !(isChildOf p q))).contains p ||
                (fs.dirs.filter (fun q => q ≠ p)).contains p) = false
              rw [(contains_eq_false_iff _ _).mpr h1, (contains_eq_false_iff _ _).mpr h2]
              rfl
            exact cleanup_noop _ _ hex
      · intro _
        have hdirs : fs.dirs.contains p = false := by
          simpa [is_dir] using hd
        have hcl : cleanup_temp_files fs p =
            ({ files := fs.files.filter (fun q => q ≠ p), dirs := fs.dirs }, none) := by
          simp [cleanup_temp_files, he, hd]
        rw [hcl]
        have h1 : p ∉ fs.files.filter (fun q => decide (q ≠ p)) := fun hmem => by
          simpa using (List.mem_filter.mp hmem).2
        have hex : pathExists
            { files := fs.files.filter (fun q => q ≠ p), dirs := fs.dirs } p = false := by
          show ((fs.files.filter (fun q => q ≠ p)).contains p || fs.dirs.contains p) = false
          rw [(contains_eq_false_iff _ _).mpr h1, hdirs]
          rfl
        exact cleanup_noop _ _ hex

/-- Witness for C9 at a filesystem holding one regular file. -/
theorem cleanup_temp_files_idempotent_witness :
    (pathExists { files := ["temp/x"], dirs := [] } "temp/x" = false →
      cleanup_temp_files { files := ["temp/x"], dirs := [] } "temp/x" =
        ({ files := ["temp/x"], dirs := [] }, none)) ∧
    ((cleanup_temp_files { files := ["temp/x"], dirs := [] } "temp/x").2 = none →
      cleanup_temp_files (cleanup_temp_files { files := ["temp/x"], dirs := [] } "temp/x").1 "temp/x" =
        ((cleanup_temp_files { files := ["temp/x"], dirs := [] } "temp/x").1, none)) :=
  cleanup_temp_files_idempotent { files := ["temp/x"], dirs := [] } "temp/x" (Or.inr (by decide))

/-- C1 counterexample: on an engine-failure exit path `run_yomitoku`
returns `output_dir = None` — the allocated output directory is NOT part of
the returned result — and the handling routine performs no cleanup, leaving
both the output directory and the input artifact on disk as dangling
temporary state. -/
theorem handle_job_dangling_counterexample :
    ((handle_job { files := ["temp/20240101_000000_a.png"], dirs := ["temp"] }
      "temp/20240101_000000_a.png" "20240101_000000" "md" false
      (EngineBehavior.exits 3 1 "" "engine failed" []) true).2).success = false ∧
    ((handle_job { files := ["temp/20240101_000000_a.png"], dirs := ["temp"] }
      "temp/20240101_000000_a.png" "20240101_000000" "md" false
      (EngineBehavior.exits 3 1 "" "engine failed" []) true).2).output_dir = none ∧
    ((handle_job { files := ["temp/20240101_000000_a.png"], dirs := ["temp"] }
      "temp/20240101_000000_a.png" "20240101_000000" "md" false
      (EngineBehavior.exits 3 1 "" "engine failed" []) true).1).dirs.contains
        (output_dir_path "20240101_000000") = true ∧
    ((handle_job { files := ["temp/20240101_000000_a.png"], dirs := ["temp"] }
      "temp/20240101_000000_a.png" "20240101_000000" "md" false
      (EngineBehavior.exits 3 1 "" "engine failed" []) true).1).files.contains
        "temp/20240101_000000_a.png" = true := by decide

/-- C1 amended: the allocated output directory is part of the returned
result exactly on the success path, but the handling routine releases the
input artifact and the output directory only when the subsequent read of
the output file also succeeds (the cleanup calls sit inside the try, after
the read); when the read raises, and on every failure exit path (where
`run_yomitoku` returns `output_dir = None`), no cleanup runs and the
output directory and the input artifact remain on disk as dangling
temporary state.  The hygiene hypotheses say the input artifact is an
existing regular file, the output directory name is fresh, and the engine
writes only immediate children of the output directory. -/
theorem handle_job_cleanup_amended
    (fs : FS) (input_path ts fmt : String) (cb : Bool) (b : EngineBehavior) (readOk : Bool)
    (hinf : fs.files.contains input_path = true)
    (hind : fs.dirs.contains input_path = false)
    (hof : fs.files.contains (output_dir_path ts) = false)
    (hod : fs.dirs.contains (output_dir_path ts) = false)
    (hnc : ∀ q ∈ fs.files ++ fs.dirs, isChildOf (output_dir_path ts) q = false)
    (hwfn : ∀ f ∈ engineFileNames b,
      isChildOf (output_dir_path ts) (output_dir_path ts ++ "/" ++ f) = true) :
    ((handle_job fs input_path ts fmt cb b readOk).2.success = true → readOk = true →
      (handle_job fs input_path ts fmt cb b readOk).2.output_dir = some (output_dir_path ts) ∧
      pathExists (handle_job fs input_path ts fmt cb b readOk).1 (output_dir_path ts) = false ∧
      pathExists (handle_job fs input_path ts fmt cb b readOk).1 input_path = false) ∧
    ((handle_job fs input_path ts fmt cb b readOk).2.success = true → readOk = false →
      (handle_job fs input_path ts fmt cb b readOk).2.output_dir = some (output_dir_path ts) ∧
      (handle_job fs input_path ts fmt cb b readOk).1.dirs.contains (output_dir_path ts) = true ∧
      (handle_job fs input_path ts fmt cb b readOk).1.files.contains input_path = true) ∧
    ((handle_job fs input_path ts fmt cb b readOk).2.success = false →
      (handle_job fs input_path ts fmt cb b readOk).2.output_dir = none ∧
      (handle_job fs input_path ts fmt cb b readOk).1.dirs.contains (output_dir_path ts) = true ∧
      (handle_job fs input_path ts fmt cb b readOk).1.files.contains input_path = true) := by
  have hne_io : input_path ≠ output_dir_path ts := by
    intro h
    rw [h] at hinf
    rw [hinf] at hof
    exact absurd hof (by decide)
  simp only [handle_job_snd]
  by_cases hs : (run_yomitoku ts input_path fmt cb b).success = true
  · by_cases hr : readOk = true
    · refine ⟨fun _ _ => ?_, fun _ hrf => absurd hr (by simp [hrf]),
        fun hfail => absurd hs (by simp [hfail])⟩
      obtain ⟨⟨f, hf⟩, hdirres, herr⟩ := (run_shape_aux ts input_path fmt cb b).1 hs
      have hcond : ((run_yomitoku ts input_path fmt cb b).success && readOk) = true := by
        rw [hs, hr]
        rfl
      have hcF0 : (fs.files ++ engineWrittenFiles (output_dir_path ts) b).contains input_path = true :=
        List.elem_iff.mpr (List.mem_append.mpr (Or.inl (List.elem_iff.mp hinf)))
      have hdirF0 : (fs.dirs ++ [output_dir_path ts]).contains input_path = false := by
        rw [contains_eq_false_iff]
        intro hmem
        rcases List.mem_append.mp hmem with h | h
        · exact (contains_eq_false_iff _ _).mp hind h
        · exact hne_io (by simpa using h)
      have hex1 : pathExists
          { files := fs.files ++ engineWrittenFiles (output_dir_path ts) b,
            dirs := fs.dirs ++ [output_dir_path ts] } input_path = true := by
        show ((fs.files ++ engineWrittenFiles (output_dir_path ts) b).contains input_path ||
          (fs.dirs ++ [output_dir_path ts]).contains input_path) = true
        rw [hcF0]
        rfl
      have hisd1 : is_dir
          { files := fs.files ++ engineWrittenFiles (output_dir_path ts) b,
            dirs := fs.dirs ++ [output_dir_path ts] } input_path = false := hdirF0
      have hc1 : cleanup_temp_files
          { files := fs.files ++ engineWrittenFiles (output_dir_path ts) b,
            dirs := fs.dirs ++ [output_dir_path ts] } input_path =
          ({ files := (fs.files ++ engineWrittenFiles (output_dir_path ts) b).filter
               (fun q => q ≠ input_path),
             dirs := fs.dirs ++ [output_dir_path ts] }, none) :=
        cleanup_file _ _ hex1 hisd1
      have hdirchild : (fs.dirs ++ [output_dir_path ts]).filter
          (fun q => isChildOf (output_dir_path ts) q) = [] := by
        rw [List.filter_append]
        have e1 : fs.dirs.filter (fun q => isChildOf (output_dir_path ts) q) = [] := by
          rw [List.filter_eq_nil_iff]
          intro a ha
          simp [hnc a (List.mem_append.mpr (Or.inr ha))]
        have e2 : [output_dir_path ts].filter
            (fun q => isChildOf (output_dir_path ts) q) = [] := by
          simp [isChildOf_self]
        rw [e1, e2]
        rfl
      have hcd : (fs.dirs ++ [output_dir_path ts]).contains (output_dir_path ts) = true :=
        List.elem_iff.mpr (List.mem_append.mpr (Or.inr (by simp)))
      have hexd : pathExists
          { files := (fs.files ++ engineWrittenFiles (output_dir_path ts) b).filter
              (fun q => q ≠ input_path),
            dirs := fs.dirs ++ [output_dir_path ts] } (output_dir_path ts) = true := by
        show (((fs.files ++ engineWrittenFiles (output_dir_path ts) b).filter
            (fun q => q ≠ input_path)).contains (output_dir_path ts) ||
          (fs.dirs ++ [output_dir_path ts]).contains (output_dir_path ts)) = true
        rw [hcd]
        simp
      have hisd2 : is_dir
          { files := (fs.files ++ engineWrittenFiles (output_dir_path ts) b).filter
              (fun q => q ≠ input_path),
            dirs := fs.dirs ++ [output_dir_path ts] } (output_dir_path ts) = true := hcd
      have hc2 : cleanup_temp_files
          { files := (fs.files ++ engineWrittenFiles (output_dir_path ts) b).filter
              (fun q => q ≠ input_path),
            dirs := fs.dirs ++ [output_dir_path ts] } (output_dir_path ts) =
          ({ files := ((fs.files ++ engineWrittenFiles (output_dir_path ts) b).filter
               (fun q => q ≠ input_path)).filter
               (fun q => !(isChildOf (output_dir_path ts) q)),
             dirs := (fs.dirs ++ [output_dir_path ts]).filter
               (fun q => q ≠ output_dir_path ts) }, none) :=
        cleanup_dir_ok _ _ hexd hisd2 hdirchild
      have hfs1 : (handle_job fs input_path ts fmt cb b readOk).1 =
          { files := ((fs.files ++ engineWrittenFiles (output_dir_path ts) b).filter
                (fun q => q ≠ input_path)).filter
                (fun q => !(isChildOf (output_dir_path ts) q)),
            dirs := (fs.dirs ++ [output_dir_path ts]).filter
                (fun q => q ≠ output_dir_path ts) } := by
        simp only [handle_job]
        rw [if_pos hcond]
        simp only [hc1]
        simp only [hc2]
      refine ⟨hdirres, ?_, ?_⟩
      · rw [hfs1]
        have hf2 : (output_dir_path ts) ∉
            ((fs.files ++ engineWrittenFiles (output_dir_path ts) b).filter
              (fun q => q ≠ input_path)).filter
              (fun q => !(isChildOf (output_dir_path ts) q)) := by
          intro hmem
          obtain ⟨hmem1, _⟩ := List.mem_filter.mp hmem
          obtain ⟨hmem2, _⟩ := List.mem_filter.mp hmem1
          rcases List.mem_append.mp hmem2 with h | h
          · exact (contains_eq_false_iff _ _).mp hof h
          · obtain ⟨g, hgmem, hge⟩ := List.mem_map.mp h
            have hchild := hwfn g hgmem
            rw [hge, isChildOf_self] at hchild
            exact absurd hchild (by decide)
        have hd2 : (output_dir_path ts) ∉
            (fs.dirs ++ [output_dir_path ts]).filter
              (fun q => q ≠ output_dir_path ts) := by
          intro hmem
          have := (List.mem_filter.mp hmem).2
          simp at this
        exact pathExists_eq_false _ _ hf2 hd2
      · rw [hfs1]
        have hfi : input_path ∉
            ((fs.files ++ engineWrittenFiles (output_dir_path ts) b).filter
              (fun q => q ≠ input_path)).filter
              (fun q => !(isChildOf (output_dir_path ts) q)) := by
          intro hmem
          have := (List.mem_filter.mp (List.mem_filter.mp hmem).1).2
          simp at this
        have hdi : input_path ∉
            (fs.dirs ++ [output_dir_path ts]).filter
              (fun q => q ≠ output_dir_path ts) := by
          intro hmem
          obtain ⟨hmem1, _⟩ := List.mem_filter.mp hmem
          rcases List.mem_append.mp hmem1 with h | h
          · exact (contains_eq_false_iff _ _).mp hind h
          · exact hne_io (by simpa using h)
        exact pathExists_eq_false _ _ hfi hdi
    · have hrf : readOk = false := Bool.eq_false_iff.mpr hr
      refine ⟨fun _ hrt => absurd hrt hr, fun _ _ => ?_,
        fun hfail => absurd hs (by simp [hfail])⟩
      obtain ⟨⟨f, hf⟩, hdirres, herr⟩ := (run_shape_aux ts input_path fmt cb b).1 hs
      have hcond : ¬(((run_yomitoku ts input_path fmt cb b).success && readOk) = true) := by
        rw [hs, hrf]
        decide
      have hfs1 : (handle_job fs input_path ts fmt cb b readOk).1 =
          { files := fs.files ++ engineWrittenFiles (output_dir_path ts) b,
            dirs := fs.dirs ++ [output_dir_path ts] } := by
        simp only [handle_job]
        rw [if_neg hcond]
      refine ⟨hdirres, ?_, ?_⟩
      · rw [hfs1]
        exact List.elem_iff.mpr (List.mem_append.mpr (Or.inr (by simp)))
      · rw [hfs1]
        exact List.elem_iff.mpr (List.mem_append.mpr (Or.inl (List.elem_iff.mp hinf)))
  · have hs2 : (run_yomitoku ts input_path fmt cb b).success = false :=
      Bool.eq_false_iff.mpr hs
    refine ⟨fun hsucc _ => absurd hsucc hs, fun hsucc _ => absurd hsucc hs, fun _ => ?_⟩
    obtain ⟨_, hod2, m, hm⟩ := (run_shape_aux ts input_path fmt cb b).2 hs2
    have hcond : ¬(((run_yomitoku ts input_path fmt cb b).success && readOk) = true) := by
      rw [hs2]
      simp
    have hfs1 : (handle_job fs input_path ts fmt cb b readOk).1 =
        { files := fs.files ++ engineWrittenFiles (output_dir_path ts) b,
          dirs := fs.dirs ++ [output_dir_path ts] } := by
      simp only [handle_job]
      rw [if_neg hcond]
    refine ⟨hod2, ?_, ?_⟩
    · rw [hfs1]
      exact List.elem_iff.mpr (List.mem_append.mpr (Or.inr (by simp)))
    · rw [hfs1]
      exact List.elem_iff.mpr (List.mem_append.mpr (Or.inl (List.elem_iff.mp hinf)))

/-- Witness for the amended C1: a successful job with a succeeding read
over a one-file store cleans up both artifacts; instantiates every hygiene
hypothesis concretely. -/
theorem handle_job_cleanup_amended_witness :
    ((handle_job { files := ["temp/in.png"], dirs := [] } "temp/in.png"
        "20240101_000000" "md" false
        (EngineBehavior.exits 3 0 "" "" ["out.md"]) true).2.success = true → true = true →
      (handle_job { files := ["temp/in.png"], dirs := [] } "temp/in.png"
        "20240101_000000" "md" false
        (EngineBehavior.exits 3 0 "" "" ["out.md"]) true).2.output_dir =
          some (output_dir_path "20240101_000000") ∧
      pathExists (handle_job { files := ["temp/in.png"], dirs := [] } "temp/in.png"
        "20240101_000000" "md" false
        (EngineBehavior.exits 3 0 "" "" ["out.md"]) true).1
          (output_dir_path "20240101_000000") = false ∧
      pathExists (handle_job { files := ["temp/in.png"], dirs := [] } "temp/in.png"
        "20240101_000000" "md" false
        (EngineBehavior.exits 3 0 "" "" ["out.md"]) true).1 "temp/in.png" = false) ∧
    ((handle_job { files := ["temp/in.png"], dirs := [] } "temp/in.png"
        "20240101_000000" "md" false
        (EngineBehavior.exits 3 0 "" "" ["out.md"]) true).2.success = true → true = false →
      (handle_job { files := ["temp/in.png"], dirs := [] } "temp/in.png"
        "20240101_000000" "md" false
        (EngineBehavior.exits 3 0 "" "" ["out.md"]) true).2.output_dir =
          some (output_dir_path "20240101_000000") ∧
      (handle_job { files := ["temp/in.png"], dirs := [] } "temp/in.png"
        "20240101_000000" "md" false
        (EngineBehavior.exits 3 0 "" "" ["out.md"]) true).1.dirs.contains
          (output_dir_path "20240101_000000") = true ∧
      (handle_job { files := ["temp/in.png"], dirs := [] } "temp/in.png"
        "20240101_000000" "md" false
        (EngineBehavior.exits 3 0 "" "" ["out.md"]) true).1.files.contains
          "temp/in.png" = true) ∧
    ((handle_job { files := ["temp/in.png"], dirs := [] } "temp/in.png"
        "20240101_000000" "md" false
        (EngineBehavior.exits 3 0 "" "" ["out.md"]) true).2.success = false →
      (handle_job { files := ["temp/in.png"], dirs := [] } "temp/in.png"
        "20240101_000000" "md" false
        (EngineBehavior.exits 3 0 "" "" ["out.md"]) true).2.output_dir = none ∧
      (handle_job { files := ["temp/in.png"], dirs := [] } "temp/in.png"
        "20240101_000000" "md" false
        (EngineBehavior.exits 3 0 "" "" ["out.md"]) true).1.dirs.contains
          (output_dir_path "20240101_000000") = true ∧
      (handle_job { files := ["temp/in.png"], dirs := [] } "temp/in.png"
        "20240101_000000" "md" false
        (EngineBehavior.exits 3 0 "" "" ["out.md"]) true).1.files.contains
          "temp/in.png" = true) :=
  handle_job_cleanup_amended { files := ["temp/in.png"], dirs := [] } "temp/in.png"
    "20240101_000000" "md" false (EngineBehavior.exits 3 0 "" "" ["out.md"]) true
    (by decide) (by decide) (by decide) (by decide) (by decide) (by decide)

end YomitokuApp
